import Mathlib

/-!
Verification of the credentials-file parser in `src/file/credential.rs`
(repository `kubeopsskills/awsp`).

The file `credential.rs` is embedded shallowly: every function of that file
becomes a Lean definition of the same name.  The helper module
`file::helper::line` and the record `AwsProfileCredential` are declared in the
repository but their sources are not available here; those few definitions are
modelled from the specification and carry a doc comment saying so.

The file system is abstracted by `PathModel`: a flag whether `stat` succeeds,
a flag whether the path is a regular file, and the list of text lines the
line-producing reader would yield.  A Rust `panic!` (process abort) is
modelled as the distinguished outcome `ParseResult.panicked`, kept apart from
the typed `CredentialsError` results.
-/

namespace Awsp

/-- Modelled from the spec: the credential record produced per profile
(`rusoto_credential::AwsCredentials`, §3 CredentialRecord): an access key,
a secret key and an optional session token. -/
structure AwsCredentials where
  key : String
  secret : String
  token : Option String
deriving Repr, DecidableEq

/-- Modelled from the spec: the profile draft
(`aws_profile_credential::AwsProfileCredential`, §3 ProfileDraft): four
optional fields accumulated while scanning one profile span. -/
structure AwsProfileCredential where
  profile_name : Option String
  access_key : Option String
  secret_key : Option String
  token : Option String
deriving Repr, DecidableEq

/-- Modelled from the spec: `AwsProfileCredential::new` — the draft created
empty (no name) at parser start (§3 lifecycle). -/
def AwsProfileCredential.new : AwsProfileCredential :=
  ⟨none, none, none, none⟩

/-- Modelled from the spec: `AwsProfileCredential::new_with_profile_name` —
the draft created at each profile header, holding only the extracted name. -/
def AwsProfileCredential.new_with_profile_name (n : String) : AwsProfileCredential :=
  ⟨some n, none, none, none⟩

/-- Modelled from the spec: `AwsProfileCredential::into_aws_credential` —
a draft converts to a credential record exactly when both the access key and
the secret key are present; the token is carried over optionally (§3
completeness invariant; the profile-name check lives in the caller
`try_insert_profile_credential_to`, which is in `src/`). -/
def AwsProfileCredential.into_aws_credential (c : AwsProfileCredential) :
    Option AwsCredentials :=
  match c.access_key, c.secret_key with
  | some a, some s => some ⟨a, s, c.token⟩
  | _, _ => none

/-- ASCII lowercasing of one character, Rust's `char::to_ascii_lowercase`.
Implemented structurally (rather than via the library `Char.toLower`) so that
concrete runs reduce inside the kernel. -/
def charToAsciiLower (c : Char) : Char :=
  if 65 ≤ c.toNat && c.toNat ≤ 90 then Char.ofNat (c.toNat + 32) else c

/-- Rust's `str::to_ascii_lowercase`. -/
def toAsciiLowercase (s : String) : String :=
  ⟨s.data.map charToAsciiLower⟩

/-- The whitespace characters trimming removes (ASCII, which covers the
credentials-file format). -/
def isWsChar (c : Char) : Bool :=
  c == ' ' || c == '\t' || c == '\n' || c == '\r'

/-- Rust's `str::trim`: drop leading and trailing whitespace. -/
def strTrim (s : String) : String :=
  ⟨((s.data.dropWhile isWsChar).reverse.dropWhile isWsChar).reverse⟩

/-- Substring containment, the embedding of Rust's `str::contains` with a
string pattern: some suffix of `s` starts with `pat`. -/
def strContains (s pat : String) : Bool :=
  (List.range (s.data.length + 1)).any (fun i => pat.data.isPrefixOf (s.data.drop i))

/-- Modelled from the spec: `helper::line::is_comment_or_empty` — true when
the trimmed line is empty or begins with the comment marker `#` or `;`
(§4.1, §6). -/
def is_comment_or_empty (line : String) : Bool :=
  match (strTrim line).data with
  | [] => true
  | c :: _ => c == '#' || c == ';'

/-- Modelled from the spec: `helper::line::is_profile` — true when the
trimmed line matches the bracketed-section pattern, i.e. starts with `[` and
ends with `]` (§4.1, §9 line-start bracket matching). -/
def is_profile (line : String) : Bool :=
  let t := (strTrim line).data
  "[".data.isPrefixOf t && "]".data.isSuffixOf t

/-- Modelled from the spec: `helper::line::get_profile_name_from` — extracts
the name between the brackets, stripping a `profile ` prefix when present;
absent when the line does not parse as a header, in particular when no name
remains between the brackets (§4.1). -/
def get_profile_name_from (line : String) : Option String :=
  let t := (strTrim line).data
  if "[".data.isPrefixOf t && "]".data.isSuffixOf t then
    let inner := (strTrim ⟨(t.drop 1).dropLast⟩).data
    let name :=
      if "profile ".data.isPrefixOf inner then (strTrim ⟨inner.drop 8⟩).data
      else inner
    match name with
    | [] => none
    | _ => some ⟨name⟩
  else none

/-- Modelled from the spec: `helper::line::extract_value_from` — splits on
the first `=` and returns the trimmed right-hand side; absent when the line
holds no `=` (§4.1). -/
def extract_value_from (line : String) : Option String :=
  match line.data.dropWhile (fun c => c != '=') with
  | [] => none
  | _ :: after => some (strTrim ⟨after⟩)

/-- `is_aws_access_key` of `credential.rs`. -/
def is_aws_access_key (line : String) : Bool :=
  strContains line "aws_access_key_id"

/-- `is_aws_secret_key` of `credential.rs`. -/
def is_aws_secret_key (line : String) : Bool :=
  strContains line "aws_secret_access_key"

/-- `is_aws_token` of `credential.rs`. -/
def is_aws_token (line : String) : Bool :=
  strContains line "aws_session_token" || strContains line "aws_security_token"

/-- `try_assign_aws_profile_credential_from` of `credential.rs`: lowercase
the line, then the first-write-wins if/else-if chain.  Note that the source
extracts the value from the lowercased copy. -/
def try_assign_aws_profile_credential_from (line : String)
    (c : AwsProfileCredential) : AwsProfileCredential :=
  let lower_case_line := toAsciiLowercase line
  if is_aws_access_key lower_case_line && c.access_key.isNone then
    { c with access_key := extract_value_from lower_case_line }
  else if is_aws_secret_key lower_case_line && c.secret_key.isNone then
    { c with secret_key := extract_value_from lower_case_line }
  else if is_aws_token lower_case_line && c.token.isNone then
    { c with token := extract_value_from lower_case_line }
  else
    c

/-- The profile map, `HashMap<String, AwsCredentials>`, as an association
list without duplicate keys; lookup is by `List.lookup`. -/
abbrev ProfileMap := List (String × AwsCredentials)

/-- `HashMap::insert`: the new binding replaces any previous binding of the
same key. -/
def insertProfile (m : ProfileMap) (k : String) (v : AwsCredentials) : ProfileMap :=
  m.filter (fun p => p.1 != k) ++ [(k, v)]

/-- `try_insert_profile_credential_to` of `credential.rs`: insert only when
the draft has a profile name and converts to a credential record. -/
def try_insert_profile_credential_to (m : ProfileMap)
    (c : AwsProfileCredential) : ProfileMap :=
  match c.profile_name, c.into_aws_credential with
  | some n, some cred => insertProfile m n cred
  | _, _ => m

/-- One iteration of the loop body of `create_profile_credentials_map_from`
(lines 61–81 of `credential.rs`) on state (map, current draft).  The
`panic!` on a header whose name cannot be extracted is modelled as
`Except.error`. -/
def processLine (st : ProfileMap × AwsProfileCredential) (line : String) :
    Except String (ProfileMap × AwsProfileCredential) :=
  if is_comment_or_empty line then
    .ok st
  else if is_profile line then
    match get_profile_name_from line with
    | some n =>
        .ok (try_insert_profile_credential_to st.1 st.2,
             AwsProfileCredential.new_with_profile_name n)
    | none => .error "Cannot get profile name"
  else
    .ok (st.1, try_assign_aws_profile_credential_from line st.2)

/-- The loop of `create_profile_credentials_map_from` over the line list. -/
def processLines : List String → ProfileMap × AwsProfileCredential →
    Except String (ProfileMap × AwsProfileCredential)
  | [], st => .ok st
  | l :: ls, st =>
    match processLine st l with
    | .ok st' => processLines ls st'
    | .error e => .error e

/-- `create_profile_credentials_map_from` of `credential.rs`: run the loop
from the empty map and the empty draft, then one final
`try_insert_profile_credential_to` on the last active draft. -/
def create_profile_credentials_map_from (lines : List String) :
    Except String ProfileMap :=
  match processLines lines ([], AwsProfileCredential.new) with
  | .ok (m, d) => .ok (try_insert_profile_credential_to m d)
  | .error e => .error e

/-- The file-system facts `parse_credentials_file` consults: whether `stat`
succeeds, whether the metadata says regular file, and the lines the reader
would yield. -/
structure PathModel where
  statOk : Bool
  isFile : Bool
  lines : List String

/-- The `CredentialsError` values `credential.rs` constructs, one per
message (§7 taxonomy). -/
inductive CredError
  | pathNotFound
  | notAFile
  | noCredentialsFound
deriving Repr, DecidableEq

/-- Outcome of `parse_credentials_file`: a typed `Ok`/`Err` result, or a
process abort via `panic!`. -/
inductive ParseResult
  | ok (m : ProfileMap)
  | err (e : CredError)
  | panicked (msg : String)
deriving Repr, DecidableEq

/-- `is_valid_file_path` of `credential.rs`: `stat` failure yields the
"couldn't stat" error, a non-regular file the "is not a file" error. -/
def is_valid_file_path (p : PathModel) : Except CredError Unit :=
  match p.statOk with
  | true => if !p.isFile then .error .notAFile else .ok ()
  | false => .error .pathNotFound

/-- `parse_credentials_file` of `credential.rs`: validate the path, build
the map, and refuse to return an empty map as success. -/
def parse_credentials_file (p : PathModel) : ParseResult :=
  match is_valid_file_path p with
  | .error e => .err e
  | .ok _ =>
    match create_profile_credentials_map_from p.lines with
    | .error msg => .panicked msg
    | .ok m => if m.isEmpty then .err .noCredentialsFound else .ok m

/-- The sequence of drafts handed to `try_insert_profile_credential_to`
during a (panic-free) run of the loop started with draft `d`: one draft per
profile header plus the final end-of-input commit. -/
def committedDrafts : List String → AwsProfileCredential →
    List AwsProfileCredential
  | [], d => [d]
  | l :: ls, d =>
    if is_comment_or_empty l then
      committedDrafts ls d
    else if is_profile l then
      d :: committedDrafts ls
        (AwsProfileCredential.new_with_profile_name
          ((get_profile_name_from l).getD ""))
    else
      committedDrafts ls (try_assign_aws_profile_credential_from l d)

/-- The loop of `create_profile_credentials_map_from` started from an
arbitrary state, followed by the final commit: `create_profile_credentials_map_from`
is `runFrom lines [] AwsProfileCredential.new`. -/
def runFrom (lines : List String) (m : ProfileMap) (d : AwsProfileCredential) :
    Except String ProfileMap :=
  match processLines lines (m, d) with
  | .ok (m', d') => .ok (try_insert_profile_credential_to m' d')
  | .error e => .error e

theorem create_eq_runFrom (lines : List String) :
    create_profile_credentials_map_from lines =
      runFrom lines [] AwsProfileCredential.new := rfl

/-! ### Lemmas about the map -/

theorem lookup_cons_pair (n : String) (p : String × AwsCredentials)
    (l : ProfileMap) :
    List.lookup n (p :: l) = if n = p.1 then some p.2 else List.lookup n l := by
  rcases p with ⟨a, b⟩
  by_cases h : n = a
  · simp [List.lookup, h]
  · simp [List.lookup, beq_false_of_ne h, h]

theorem lookup_append (n : String) (l₁ l₂ : ProfileMap) :
    List.lookup n (l₁ ++ l₂) =
      match List.lookup n l₁ with
      | some v => some v
      | none => List.lookup n l₂ := by
  induction l₁ with
  | nil => simp [List.lookup]
  | cons p l ih =>
    by_cases h : n = p.1
    · simp [List.cons_append, lookup_cons_pair, h]
    · simp [List.cons_append, lookup_cons_pair, h, ih]

theorem lookup_filter_ne (m : ProfileMap) (k n : String) (h : n ≠ k) :
    List.lookup n (m.filter (fun p => p.1 != k)) = List.lookup n m := by
  induction m with
  | nil => simp
  | cons p l ih =>
    by_cases hp : p.1 = k
    · have hnp : ¬ n = p.1 := fun hn => h (hn ▸ hp)
      simp [List.filter_cons, hp, lookup_cons_pair, hnp, h, ih]
    · simp [List.filter_cons, bne_iff_ne, hp, lookup_cons_pair, ih]

theorem lookup_filter_self (m : ProfileMap) (k : String) :
    List.lookup k (m.filter (fun p => p.1 != k)) = none := by
  induction m with
  | nil => simp
  | cons p l ih =>
    by_cases hp : p.1 = k
    · simp [List.filter_cons, hp, ih]
    · have hkp : ¬ k = p.1 := fun hn => hp hn.symm
      simp [List.filter_cons, bne_iff_ne, hp, lookup_cons_pair, hkp, ih]

theorem lookup_insertProfile (m : ProfileMap) (k n : String) (v : AwsCredentials) :
    List.lookup n (insertProfile m k v) =
      if n = k then some v else List.lookup n m := by
  by_cases h : n = k
  · subst h
    rw [insertProfile, lookup_append, lookup_filter_self]
    simp [lookup_cons_pair]
  · rw [insertProfile, lookup_append, lookup_filter_ne m k n h]
    cases hm : List.lookup n m <;> simp [lookup_cons_pair, h, hm]

theorem into_aws_credential_isSome (c : AwsProfileCredential) :
    c.into_aws_credential.isSome = (c.access_key.isSome && c.secret_key.isSome) := by
  rcases c with ⟨n, a, s, t⟩
  cases a <;> cases s <;> rfl

theorem lookup_try_insert_isSome (m : ProfileMap) (d : AwsProfileCredential)
    (n : String) :
    (List.lookup n (try_insert_profile_credential_to m d)).isSome ↔
      (d.profile_name = some n ∧ d.access_key.isSome ∧ d.secret_key.isSome) ∨
        (List.lookup n m).isSome := by
  rcases hd : d.profile_name with _ | k
  · rcases hc : d.into_aws_credential with _ | cred <;>
      simp [try_insert_profile_credential_to, hd, hc]
  · rcases hc : d.into_aws_credential with _ | cred
    · simp only [try_insert_profile_credential_to, hd, hc]
      constructor
      · intro h; right; exact h
      · rintro (⟨hk, ha, hs⟩ | h)
        · exfalso
          have h2 := into_aws_credential_isSome d
          rw [hc] at h2
          simp [ha, hs] at h2
        · exact h
    · have hboth : d.access_key.isSome = true ∧ d.secret_key.isSome = true := by
        have h2 : (d.access_key.isSome && d.secret_key.isSome) = true := by
          rw [← into_aws_credential_isSome, hc]
          rfl
        simpa only [Bool.and_eq_true] using h2
      simp only [try_insert_profile_credential_to, hd, hc]
      rw [lookup_insertProfile]
      by_cases hn : n = k
      · subst hn
        simp [hd, hboth.1, hboth.2]
      · have hkn : k ≠ n := fun hk => hn hk.symm
        simp [hn, hd, hkn]

theorem try_insert_name_none (m : ProfileMap) (d : AwsProfileCredential)
    (h : d.profile_name = none) : try_insert_profile_credential_to m d = m := by
  simp [try_insert_profile_credential_to, h]

/-! ### Lemmas about the loop -/

theorem try_assign_profile_name (line : String) (d : AwsProfileCredential) :
    (try_assign_aws_profile_credential_from line d).profile_name = d.profile_name := by
  simp only [try_assign_aws_profile_credential_from]
  split
  · rfl
  · split
    · rfl
    · split <;> rfl

theorem processLines_append (a b : List String)
    (st : ProfileMap × AwsProfileCredential) :
    processLines (a ++ b) st =
      match processLines a st with
      | .ok st' => processLines b st'
      | .error e => .error e := by
  induction a generalizing st with
  | nil => simp [processLines]
  | cons l ls ih =>
    simp only [List.cons_append, processLines]
    cases processLine st l with
    | ok st' => exact ih st'
    | error e => rfl

theorem runFrom_cons (l : String) (ls : List String) (m : ProfileMap)
    (d : AwsProfileCredential) :
    runFrom (l :: ls) m d =
      match processLine (m, d) l with
      | .ok st => runFrom ls st.1 st.2
      | .error e => .error e := by
  cases hstep : processLine (m, d) l with
  | ok st =>
    rcases st with ⟨m₂, d₂⟩
    simp only [runFrom, processLines, hstep]
  | error e =>
    simp only [runFrom, processLines, hstep]

theorem runFrom_append (a b : List String) (m : ProfileMap)
    (d : AwsProfileCredential) :
    runFrom (a ++ b) m d =
      match processLines a (m, d) with
      | .ok st => runFrom b st.1 st.2
      | .error e => .error e := by
  unfold runFrom
  rw [processLines_append]
  cases processLines a (m, d) with
  | ok st => rfl
  | error e => rfl

/-- The names present in the final map are exactly the initial names plus the
committed drafts that carried a name, an access key and a secret key. -/
theorem lookup_runFrom_isSome (lines : List String) :
    ∀ (m : ProfileMap) (d : AwsProfileCredential) (m' : ProfileMap),
      runFrom lines m d = .ok m' → ∀ n : String,
      (List.lookup n m').isSome ↔
        (List.lookup n m).isSome ∨
          ∃ c ∈ committedDrafts lines d,
            c.profile_name = some n ∧ c.access_key.isSome ∧ c.secret_key.isSome := by
  induction lines with
  | nil =>
    intro m d m' h n
    have hm' : m' = try_insert_profile_credential_to m d := by
      simpa [runFrom, processLines] using h.symm
    subst hm'
    rw [lookup_try_insert_isSome]
    simp [committedDrafts]
    tauto
  | cons l ls ih =>
    intro m d m' h n
    rw [runFrom_cons] at h
    by_cases hc : is_comment_or_empty l
    · simp only [processLine, hc, if_true] at h
      rw [show committedDrafts (l :: ls) d = committedDrafts ls d by
        simp [committedDrafts, hc]]
      exact ih m d m' h n
    · by_cases hp : is_profile l
      · rcases hn : get_profile_name_from l with _ | nm
        · simp [processLine, hc, hp, hn] at h
        · simp only [processLine, hc, hp, hn, if_false, if_true,
            Bool.false_eq_true] at h
          have hcd : committedDrafts (l :: ls) d =
              d :: committedDrafts ls (AwsProfileCredential.new_with_profile_name nm) := by
            simp [committedDrafts, hc, hp, hn]
          rw [hcd]
          have := ih _ _ m' h n
          rw [lookup_try_insert_isSome] at this
          rw [this]
          simp only [List.mem_cons]
          constructor
          · rintro ((hd0 | hm) | ⟨c, hcmem, hcP⟩)
            · exact Or.inr ⟨d, Or.inl rfl, hd0⟩
            · exact Or.inl hm
            · exact Or.inr ⟨c, Or.inr hcmem, hcP⟩
          · rintro (hm | ⟨c, (rfl | hcmem), hcP⟩)
            · exact Or.inl (Or.inr hm)
            · exact Or.inl (Or.inl hcP)
            · exact Or.inr ⟨c, hcmem, hcP⟩
      · simp only [processLine, hc, hp, if_false, Bool.false_eq_true] at h
        rw [show committedDrafts (l :: ls) d =
            committedDrafts ls (try_assign_aws_profile_credential_from l d) by
          simp [committedDrafts, hc, hp]]
        exact ih m _ m' h n

/-- Filtering out comment/blank lines does not change the loop. -/
theorem processLines_filter (lines : List String) :
    ∀ st, processLines (lines.filter (fun l => !is_comment_or_empty l)) st =
      processLines lines st := by
  induction lines with
  | nil => intro st; rfl
  | cons l ls ih =>
    intro st
    by_cases hc : is_comment_or_empty l
    · have hstep : processLine st l = .ok st := by simp [processLine, hc]
      simp [List.filter_cons, hc, processLines, hstep, ih st]
    · simp only [List.filter_cons, hc, Bool.not_false, if_true, processLines]
      cases hstep : processLine st l with
      | ok st' => exact ih st'
      | error e => rfl

/-- Non-header lines leave the map untouched, never fail, and keep the
draft's profile name. -/
theorem processLines_no_header (pre : List String) :
    ∀ (m : ProfileMap) (d : AwsProfileCredential),
      (∀ l ∈ pre, is_profile l = false) →
      ∃ d₂, processLines pre (m, d) = .ok (m, d₂) ∧
        d₂.profile_name = d.profile_name := by
  induction pre with
  | nil => intro m d _; exact ⟨d, rfl, rfl⟩
  | cons l ls ih =>
    intro m d hpre
    have hl : is_profile l = false := hpre l (List.mem_cons_self l ls)
    have hls : ∀ x ∈ ls, is_profile x = false :=
      fun x hx => hpre x (List.mem_cons_of_mem l hx)
    by_cases hc : is_comment_or_empty l
    · have hstep : processLine (m, d) l = .ok (m, d) := by simp [processLine, hc]
      obtain ⟨d₂, h1, h2⟩ := ih m d hls
      exact ⟨d₂, by simp [processLines, hstep, h1], h2⟩
    · have hstep : processLine (m, d) l =
          .ok (m, try_assign_aws_profile_credential_from l d) := by
        simp [processLine, hc, hl]
      obtain ⟨d₂, h1, h2⟩ := ih m (try_assign_aws_profile_credential_from l d) hls
      exact ⟨d₂, by simp [processLines, hstep, h1],
        h2.trans (try_assign_profile_name l d)⟩

/-- Two nameless drafts are interchangeable: whatever fields they
accumulated, the rest of the run produces the same outcome. -/
theorem runFrom_name_none (lines : List String) :
    ∀ (m : ProfileMap) (d₁ d₂ : AwsProfileCredential),
      d₁.profile_name = none → d₂.profile_name = none →
      runFrom lines m d₁ = runFrom lines m d₂ := by
  induction lines with
  | nil =>
    intro m d₁ d₂ h₁ h₂
    show Except.ok (try_insert_profile_credential_to m d₁) =
      Except.ok (try_insert_profile_credential_to m d₂)
    rw [try_insert_name_none m d₁ h₁, try_insert_name_none m d₂ h₂]
  | cons l ls ih =>
    intro m d₁ d₂ h₁ h₂
    rw [runFrom_cons, runFrom_cons]
    by_cases hc : is_comment_or_empty l
    · simp only [processLine, hc, if_true]
      exact ih m d₁ d₂ h₁ h₂
    · by_cases hp : is_profile l
      · rcases hn : get_profile_name_from l with _ | nm
        · simp [processLine, hc, hp, hn]
        · simp only [processLine, hc, hp, hn, if_false, if_true,
            Bool.false_eq_true]
          rw [try_insert_name_none m d₁ h₁, try_insert_name_none m d₂ h₂]
      · simp only [processLine, hc, hp, if_false, Bool.false_eq_true]
        exact ih m _ _
          ((try_assign_profile_name l d₁).trans h₁)
          ((try_assign_profile_name l d₂).trans h₂)

theorem try_assign_preserves_access (line : String) (d : AwsProfileCredential)
    (h : d.access_key.isSome = true) :
    (try_assign_aws_profile_credential_from line d).access_key = d.access_key := by
  rcases d with ⟨pn, a, s, t⟩
  rcases a with _ | av
  · simp at h
  · simp only [try_assign_aws_profile_credential_from]
    split
    · simp_all
    · split
      · rfl
      · split <;> rfl

theorem try_assign_preserves_secret (line : String) (d : AwsProfileCredential)
    (h : d.secret_key.isSome = true) :
    (try_assign_aws_profile_credential_from line d).secret_key = d.secret_key := by
  rcases d with ⟨pn, a, s, t⟩
  rcases s with _ | sv
  · simp at h
  · simp only [try_assign_aws_profile_credential_from]
    split
    · rfl
    · split
      · simp_all
      · split <;> rfl

theorem try_assign_preserves_token (line : String) (d : AwsProfileCredential)
    (h : d.token.isSome = true) :
    (try_assign_aws_profile_credential_from line d).token = d.token := by
  rcases d with ⟨pn, a, s, t⟩
  rcases t with _ | tv
  · simp at h
  · simp only [try_assign_aws_profile_credential_from]
    split
    · rfl
    · split
      · rfl
      · split
        · simp_all
        · rfl

theorem try_assign_idem (line : String) (d : AwsProfileCredential)
    (h1 : (is_aws_access_key (toAsciiLowercase line) && is_aws_secret_key (toAsciiLowercase line)) = false)
    (h2 : (is_aws_access_key (toAsciiLowercase line) && is_aws_token (toAsciiLowercase line)) = false)
    (h3 : (is_aws_secret_key (toAsciiLowercase line) && is_aws_token (toAsciiLowercase line)) = false) :
    try_assign_aws_profile_credential_from line
      (try_assign_aws_profile_credential_from line d) =
      try_assign_aws_profile_credential_from line d := by
  rcases d with ⟨pn, a, s, t⟩
  cases hla : is_aws_access_key (toAsciiLowercase line) <;>
    cases hls : is_aws_secret_key (toAsciiLowercase line) <;>
      cases hlt : is_aws_token (toAsciiLowercase line) <;>
        rcases a with _ | av <;>
          rcases s with _ | sv <;>
            rcases t with _ | tv <;>
              rcases he : extract_value_from (toAsciiLowercase line) with _ | v <;>
                simp_all [try_assign_aws_profile_credential_from]

/-! ### Claims -/

/-- C1: the claim says an access-key value containing uppercase letters must
appear in the returned map unchanged.  The source extracts the value from the
lowercased copy of the line (`credential.rs` lines 96/98/100), so the stored
value is `"abcde"`, not `"AbCdE"`: the code contradicts the claim (the spec's
§9 names this as the source's case-folding bug). -/
theorem c1_uppercase_value_is_lowercased_by_code :
    parse_credentials_file ⟨true, true,
      ["[default]", "aws_access_key_id = AbCdE", "aws_secret_access_key = s"]⟩ =
      .ok [("default", ⟨"abcde", "s", none⟩)] ∧
    ("abcde" : String) ≠ "AbCdE" := by
  exact ⟨by decide, by decide⟩

/-- C4: the claim says a line passing `is_profile` that yields no extractable
name produces a typed `MalformedHeader` error result, not an uncontrolled
process abort.  On the line `"[]"` the source instead reaches
`panic!("Cannot get profile name, ...")` (`credential.rs` line 75), aborting
the process rather than returning a typed `CredentialsError`. -/
theorem c4_malformed_header_panics_instead_of_typed_error :
    parse_credentials_file ⟨true, true, ["[]"]⟩ =
      .panicked "Cannot get profile name" := by
  rfl

/-- C8: `parse_credentials_file` validates the path before any line is read:
a failing `stat` yields the not-found `CredentialsError`, a non-regular file
the not-a-file `CredentialsError`, in both cases for every possible file
content (so no line is consumed). -/
theorem c8_path_validation_before_any_read :
    ∀ p : PathModel,
      (p.statOk = false → parse_credentials_file p = .err .pathNotFound) ∧
      (p.statOk = true → p.isFile = false →
        parse_credentials_file p = .err .notAFile) := by
  intro p
  rcases p with ⟨sOk, f, ls⟩
  constructor
  · intro h
    subst h
    rfl
  · intro h1 h2
    subst h1
    subst h2
    rfl

theorem c8_witness :
    parse_credentials_file ⟨false, true, ["[p]"]⟩ = .err .pathNotFound ∧
    parse_credentials_file ⟨true, false, ["[p]"]⟩ = .err .notAFile :=
  ⟨(c8_path_validation_before_any_read ⟨false, true, ["[p]"]⟩).1 rfl,
   (c8_path_validation_before_any_read ⟨true, false, ["[p]"]⟩).2 rfl rfl⟩

/-- C3: on a valid path, `parse_credentials_file` never returns an empty map
as success; when the loop finishes with an empty map it fails with the
no-credentials-found error, otherwise it succeeds with the (non-empty) map. -/
theorem c3_empty_map_is_never_success :
    ∀ p : PathModel,
      (∀ m : ProfileMap, parse_credentials_file p = .ok m → m ≠ []) ∧
      (p.statOk = true → p.isFile = true →
        ∀ m : ProfileMap, create_profile_credentials_map_from p.lines = .ok m →
          parse_credentials_file p =
            if m.isEmpty then .err .noCredentialsFound else .ok m) := by
  intro p
  rcases p with ⟨sOk, f, ls⟩
  constructor
  · intro m hm
    cases sOk with
    | false => exact absurd hm (by simp [parse_credentials_file, is_valid_file_path])
    | true =>
      cases f with
      | false => exact absurd hm (by simp [parse_credentials_file, is_valid_file_path])
      | true =>
        cases hc : create_profile_credentials_map_from ls with
        | error e =>
          have hpe : parse_credentials_file ⟨true, true, ls⟩ = .panicked e := by
            simp [parse_credentials_file, is_valid_file_path, hc]
          rw [hpe] at hm
          exact ParseResult.noConfusion hm
        | ok m₂ =>
          have hpp : parse_credentials_file ⟨true, true, ls⟩ =
              if m₂.isEmpty then .err .noCredentialsFound else .ok m₂ := by
            simp [parse_credentials_file, is_valid_file_path, hc]
          rw [hpp] at hm
          by_cases he : m₂.isEmpty
          · rw [if_pos he] at hm
            exact ParseResult.noConfusion hm
          · rw [if_neg he] at hm
            injection hm with h12
            subst h12
            intro hnil
            exact he (by simp [hnil])
  · intro h1 h2 m hm
    subst h1
    subst h2
    simp [parse_credentials_file, is_valid_file_path, hm]

theorem c3_witness :
    parse_credentials_file ⟨true, true, ["# only a comment"]⟩ =
      (if ([] : ProfileMap).isEmpty then ParseResult.err .noCredentialsFound
       else .ok []) :=
  (c3_empty_map_is_never_success ⟨true, true, ["# only a comment"]⟩).2 rfl rfl [] rfl

/-- C2 (counterexample): with input `[foo]`, access/secret lines, `[foo]`,
the profile `foo` is in the returned map although the draft of its *last*
span (the second `[foo]`, whose draft is the final commit) has no access key
and no secret key — refuting the claim's "(last) span" iff. -/
theorem c2_counterexample_name_in_map_though_last_span_incomplete :
    parse_credentials_file ⟨true, true,
      ["[foo]", "aws_access_key_id = a", "aws_secret_access_key = s", "[foo]"]⟩ =
      .ok [("foo", ⟨"a", "s", none⟩)] ∧
    (committedDrafts
        ["[foo]", "aws_access_key_id = a", "aws_secret_access_key = s", "[foo]"]
        AwsProfileCredential.new).getLast? =
      some ⟨some "foo", none, none, none⟩ := by
  exact ⟨by decide, by decide⟩

/-- C2 (amended): a profile name maps to a record in a successful parse iff
*some* committed draft (one per header, plus the end-of-input commit) carried
that name together with an access key and a secret key; failing drafts are
discarded without an error. -/
theorem c2_amended_membership_iff_some_committed_draft :
    ∀ (lines : List String) (m : ProfileMap),
      create_profile_credentials_map_from lines = .ok m → ∀ n : String,
      (List.lookup n m).isSome ↔
        ∃ c ∈ committedDrafts lines AwsProfileCredential.new,
          c.profile_name = some n ∧ c.access_key.isSome ∧ c.secret_key.isSome := by
  intro lines m h n
  have hr := lookup_runFrom_isSome lines [] AwsProfileCredential.new m
    (by rw [← create_eq_runFrom]; exact h) n
  simpa using hr

theorem c2_amended_witness :
    (List.lookup "foo" [("foo", (⟨"a", "s", none⟩ : AwsCredentials))]).isSome ↔
      ∃ c ∈ committedDrafts
          ["[foo]", "aws_access_key_id = a", "aws_secret_access_key = s"]
          AwsProfileCredential.new,
        c.profile_name = some "foo" ∧ c.access_key.isSome ∧ c.secret_key.isSome :=
  c2_amended_membership_iff_some_committed_draft
    ["[foo]", "aws_access_key_id = a", "aws_secret_access_key = s"]
    [("foo", ⟨"a", "s", none⟩)] (by rfl) "foo"

/-- C5 (counterexample): a single key/value line whose key text matches both
the access-key and the secret-key patterns is not idempotent under
duplication: the first feed sets the access key, the second feed falls into
the secret-key branch and sets the secret key too. -/
theorem c5_counterexample_duplicate_line_not_idempotent :
    try_assign_aws_profile_credential_from
        "aws_access_key_id_aws_secret_access_key = v"
        (try_assign_aws_profile_credential_from
          "aws_access_key_id_aws_secret_access_key = v"
          AwsProfileCredential.new) ≠
      try_assign_aws_profile_credential_from
        "aws_access_key_id_aws_secret_access_key = v"
        AwsProfileCredential.new := by
  decide

/-- C5 (amended): once set, each of the three fields survives every later
line unchanged (first-write-wins, for lines of any letter case); and feeding
a duplicate of the same line is idempotent for lines whose lowercased text
matches at most one of the three key patterns. -/
theorem c5_amended_first_write_wins_and_single_kind_idem :
    ∀ (line : String) (d : AwsProfileCredential),
      (d.access_key.isSome = true →
        (try_assign_aws_profile_credential_from line d).access_key =
          d.access_key) ∧
      (d.secret_key.isSome = true →
        (try_assign_aws_profile_credential_from line d).secret_key =
          d.secret_key) ∧
      (d.token.isSome = true →
        (try_assign_aws_profile_credential_from line d).token = d.token) ∧
      ((is_aws_access_key (toAsciiLowercase line) &&
          is_aws_secret_key (toAsciiLowercase line)) = false →
        (is_aws_access_key (toAsciiLowercase line) &&
          is_aws_token (toAsciiLowercase line)) = false →
        (is_aws_secret_key (toAsciiLowercase line) &&
          is_aws_token (toAsciiLowercase line)) = false →
        try_assign_aws_profile_credential_from line
            (try_assign_aws_profile_credential_from line d) =
          try_assign_aws_profile_credential_from line d) :=
  fun line d =>
    ⟨try_assign_preserves_access line d, try_assign_preserves_secret line d,
     try_assign_preserves_token line d, try_assign_idem line d⟩

theorem c5_amended_witness :
    (try_assign_aws_profile_credential_from "AWS_ACCESS_KEY_ID = second"
        ⟨none, some "first", some "u", some "v"⟩).access_key = some "first" ∧
    try_assign_aws_profile_credential_from "aws_access_key_id = x"
        (try_assign_aws_profile_credential_from "aws_access_key_id = x"
          AwsProfileCredential.new) =
      try_assign_aws_profile_credential_from "aws_access_key_id = x"
        AwsProfileCredential.new :=
  ⟨(c5_amended_first_write_wins_and_single_kind_idem "AWS_ACCESS_KEY_ID = second"
      ⟨none, some "first", some "u", some "v"⟩).1 rfl,
   (c5_amended_first_write_wins_and_single_kind_idem "aws_access_key_id = x"
      AwsProfileCredential.new).2.2.2 (by decide) (by decide) (by decide)⟩

/-- C6 (counterexample): re-declaring `[foo]` where the later span carries
only a token leaves the map holding the *first* span's record (access `a`,
secret `s`, no token): the later span's draft is incomplete and is
discarded, so the entry does not reflect only the later span's fields. -/
theorem c6_counterexample_incomplete_later_span_keeps_earlier_entry :
    parse_credentials_file ⟨true, true,
      ["[foo]", "aws_access_key_id = a", "aws_secret_access_key = s",
       "[foo]", "aws_session_token = t"]⟩ =
      .ok [("foo", ⟨"a", "s", none⟩)] := by
  decide

/-- C6 (amended): when the later span's draft is complete (name, access key
and secret key all present), its commit replaces the earlier entry entirely
— the stored record is built from the later draft's fields alone; a draft
that does not convert to a credential record is discarded, leaving the map
unchanged (so an earlier entry survives an incomplete re-declaration). -/
theorem c6_amended_complete_later_draft_replaces_entirely :
    ∀ (m : ProfileMap) (n a s : String) (t : Option String),
      List.lookup n
          (try_insert_profile_credential_to m ⟨some n, some a, some s, t⟩) =
        some ⟨a, s, t⟩ ∧
      ∀ d : AwsProfileCredential, d.into_aws_credential = none →
        try_insert_profile_credential_to m d = m := by
  intro m n a s t
  constructor
  · show List.lookup n (insertProfile m n ⟨a, s, t⟩) = some ⟨a, s, t⟩
    rw [lookup_insertProfile]
    simp
  · intro d hd
    rcases hp : d.profile_name with _ | k <;>
      simp [try_insert_profile_credential_to, hp, hd]

theorem c6_amended_witness :
    List.lookup "foo"
        (try_insert_profile_credential_to [("foo", ⟨"x", "y", some "z"⟩)]
          ⟨some "foo", some "a", some "s", none⟩) = some ⟨"a", "s", none⟩ ∧
    try_insert_profile_credential_to [("foo", ⟨"x", "y", some "z"⟩)]
        ⟨some "foo", none, none, none⟩ = [("foo", ⟨"x", "y", some "z"⟩)] :=
  ⟨(c6_amended_complete_later_draft_replaces_entirely
      [("foo", ⟨"x", "y", some "z"⟩)] "foo" "a" "s" none).1,
   (c6_amended_complete_later_draft_replaces_entirely
      [("foo", ⟨"x", "y", some "z"⟩)] "foo" "a" "s" none).2
     ⟨some "foo", none, none, none⟩ rfl⟩

/-- C7: comment and blank lines are no-ops: filtering them out of the input
yields the identical parse result, and one comment-or-empty line leaves the
(map, draft) state untouched. -/
theorem c7_comment_blank_lines_are_noops :
    ∀ p : PathModel,
      parse_credentials_file
          ⟨p.statOk, p.isFile,
           p.lines.filter (fun l => !is_comment_or_empty l)⟩ =
        parse_credentials_file p ∧
      ∀ (st : ProfileMap × AwsProfileCredential) (l : String),
        is_comment_or_empty l = true → processLine st l = .ok st := by
  intro p
  rcases p with ⟨sOk, f, ls⟩
  constructor
  · cases sOk with
    | false => rfl
    | true =>
      cases f with
      | false => rfl
      | true =>
        have hcr : create_profile_credentials_map_from
            (ls.filter (fun l => !is_comment_or_empty l)) =
            create_profile_credentials_map_from ls := by
          unfold create_profile_credentials_map_from
          rw [processLines_filter]
        simp [parse_credentials_file, is_valid_file_path, hcr]
  · intro st l hc
    simp [processLine, hc]

theorem c7_witness :
    parse_credentials_file ⟨true, true,
        (["# x", "[p]", "", "aws_access_key_id=a",
          "aws_secret_access_key=b"].filter
          (fun l => !is_comment_or_empty l))⟩ =
      parse_credentials_file ⟨true, true,
        ["# x", "[p]", "", "aws_access_key_id=a",
         "aws_secret_access_key=b"]⟩ ∧
    processLine ([], AwsProfileCredential.new) "; note" =
      .ok ([], AwsProfileCredential.new) :=
  ⟨(c7_comment_blank_lines_are_noops ⟨true, true,
      ["# x", "[p]", "", "aws_access_key_id=a",
       "aws_secret_access_key=b"]⟩).1,
   (c7_comment_blank_lines_are_noops ⟨true, true, []⟩).2
     ([], AwsProfileCredential.new) "; note" rfl⟩

/-- C9: key/value lines before the first profile header never contribute to
the result: stripping any header-free line block from the front of the input
leaves the parse result unchanged (the nameless initial draft is discarded
at its commit). -/
theorem c9_lines_before_first_header_never_contribute :
    ∀ (sOk f : Bool) (pre rest : List String),
      (∀ l ∈ pre, is_profile l = false) →
      parse_credentials_file ⟨sOk, f, pre ++ rest⟩ =
        parse_credentials_file ⟨sOk, f, rest⟩ := by
  intro sOk f pre rest hpre
  cases sOk with
  | false => rfl
  | true =>
    cases f with
    | false => rfl
    | true =>
      have hcreate : create_profile_credentials_map_from (pre ++ rest) =
          create_profile_credentials_map_from rest := by
        rw [create_eq_runFrom, create_eq_runFrom, runFrom_append]
        obtain ⟨d₂, h1, h2⟩ :=
          processLines_no_header pre [] AwsProfileCredential.new hpre
        rw [h1]
        exact runFrom_name_none rest [] d₂ AwsProfileCredential.new h2 rfl
      simp [parse_credentials_file, is_valid_file_path, hcreate]

theorem c9_witness :
    parse_credentials_file ⟨true, true,
        ["aws_access_key_id = x", "aws_secret_access_key = y"] ++
          ["[p]", "aws_access_key_id=a", "aws_secret_access_key=b"]⟩ =
      parse_credentials_file ⟨true, true,
        ["[p]", "aws_access_key_id=a", "aws_secret_access_key=b"]⟩ :=
  c9_lines_before_first_header_never_contribute true true
    ["aws_access_key_id = x", "aws_secret_access_key = y"]
    ["[p]", "aws_access_key_id=a", "aws_secret_access_key=b"] (by decide)

/-- C10: a non-header, non-comment line maps the state to exactly
`(same map, try_assign on the draft)` — so the map and the draft's profile
name are untouched and at most one of the three credential fields changes. -/
theorem c10_nonheader_line_frame :
    ∀ (st : ProfileMap × AwsProfileCredential) (l : String),
      is_comment_or_empty l = false → is_profile l = false →
      processLine st l =
        .ok (st.1, try_assign_aws_profile_credential_from l st.2) ∧
      (try_assign_aws_profile_credential_from l st.2).profile_name =
        st.2.profile_name ∧
      (((try_assign_aws_profile_credential_from l st.2).access_key =
          st.2.access_key ∧
        (try_assign_aws_profile_credential_from l st.2).secret_key =
          st.2.secret_key) ∨
       ((try_assign_aws_profile_credential_from l st.2).access_key =
          st.2.access_key ∧
        (try_assign_aws_profile_credential_from l st.2).token = st.2.token) ∨
       ((try_assign_aws_profile_credential_from l st.2).secret_key =
          st.2.secret_key ∧
        (try_assign_aws_profile_credential_from l st.2).token = st.2.token)) := by
  intro st l hc hp
  refine ⟨by simp [processLine, hc, hp], try_assign_profile_name l st.2, ?_⟩
  simp only [try_assign_aws_profile_credential_from]
  split
  · exact Or.inr (Or.inr ⟨rfl, rfl⟩)
  · split
    · exact Or.inr (Or.inl ⟨rfl, rfl⟩)
    · split
      · exact Or.inl ⟨rfl, rfl⟩
      · exact Or.inl ⟨rfl, rfl⟩

theorem c10_witness :
    processLine ([("q", ⟨"k", "s", none⟩)], AwsProfileCredential.new)
        "aws_access_key_id = z" =
      .ok ([("q", ⟨"k", "s", none⟩)],
        try_assign_aws_profile_credential_from "aws_access_key_id = z"
          AwsProfileCredential.new) :=
  (c10_nonheader_line_frame
    ([("q", ⟨"k", "s", none⟩)], AwsProfileCredential.new)
    "aws_access_key_id = z" rfl rfl).1

end Awsp
